import Mathlib

set_option maxHeartbeats 1000000

namespace OpenGeminiCli

/-! # Shallow embedding of the openGemini-cli import engine

Definitions are translated from the Go sources:
* `src/core/line_protocol.go` — the line-protocol tokenizer state machine;
* `src/prompt/completer.go` (the `subcmd` import part) — batch buffers,
  flush (`excuteByLPBuffer`), forced drain (`clearBuffer`), CSV header and
  data-row processing, and the column-write response-code mapping.
-/

/-! ## Small helpers shared by several components -/

/-- All characters are ASCII decimal digits. -/
def allDigits (cs : List Char) : Bool := cs.all (fun c => c.isDigit)

/-- Value of a list of decimal digit characters. -/
def digitsVal (cs : List Char) : Nat := cs.foldl (fun a c => a * 10 + (c.toNat - 48)) 0

/-- Embedding of Go `strconv.Atoi`: an optional sign followed by a non-empty
run of decimal digits; anything else is a parse failure (`none`). -/
def atoiGo (s : String) : Option Int :=
  match s.toList with
  | '+' :: ds => if ds ≠ [] ∧ allDigits ds then some (digitsVal ds) else none
  | '-' :: ds => if ds ≠ [] ∧ allDigits ds then some (-(digitsVal ds : Int)) else none
  | ds => if ds ≠ [] ∧ allDigits ds then some (digitsVal ds) else none

/-- Go-map style assignment on an association list: replace the value at the
first occurrence of the key, or append the binding when the key is absent
(embeds `m[k] = v` on a Go `map[string]string`). -/
def mapSet : List (String × String) → String → String → List (String × String)
  | [], k, v => [(k, v)]
  | (k', v') :: rest, k, v =>
    if k' = k then (k, v) :: rest else (k', v') :: mapSet rest k v

/-! ## Line-protocol tokenizer (`src/core/line_protocol.go`) -/

/-- `LineProtocolState` of the tokenizer FSM (line_protocol.go lines 31-38). -/
inductive LPState where
  | measurement
  | tagKey
  | tagValue
  | fieldKey
  | fieldValue
  | timestamp
deriving DecidableEq, Repr

/-- An `opengemini.Point` as populated by this parser: the tag and field maps
only ever receive string values (`appendTagOrField` assigns `currentValue`). -/
structure Point where
  measurement : String
  tags : List (String × String)
  fields : List (String × String)
  timestamp : Int
deriving DecidableEq, Repr

/-- The mutable fields of `LineProtocolParser` (line_protocol.go lines 40-51),
with the current point inlined as `pointMeasurement`/`pointTags`/`pointFields`. -/
structure LPParser where
  pointMeasurement : String
  pointTags : List (String × String)
  pointFields : List (String × String)
  currentState : LPState
  currentKey : String
  currentValue : String
  currentTime : String
  escape : Bool
  quota : Bool
  bracket : Bool
deriving DecidableEq, Repr

/-- The zero-valued parser produced by `NewLineProtocolParser`. -/
def initLPParser : LPParser :=
  { pointMeasurement := "", pointTags := [], pointFields := [],
    currentState := .measurement, currentKey := "", currentValue := "",
    currentTime := "", escape := false, quota := false, bracket := false }

/-- Embeds `appendToken` (line_protocol.go lines 202-214).  Note that the
`Timestamp` state falls through to the empty `default` case: the character is
discarded and `currentTime` is never written. -/
def appendToken (p : LPParser) (c : Char) : LPParser :=
  match p.currentState with
  | .measurement => { p with pointMeasurement := p.pointMeasurement.push c }
  | .tagKey | .fieldKey => { p with currentKey := p.currentKey.push c }
  | .tagValue | .fieldValue => { p with currentValue := p.currentValue.push c }
  | .timestamp => p

/-- Embeds `appendTagOrField` (line_protocol.go lines 216-227). -/
def appendTagOrField (p : LPParser) : LPParser :=
  let p' :=
    match p.currentState with
    | .tagKey | .tagValue =>
        { p with pointTags := mapSet p.pointTags p.currentKey p.currentValue }
    | .fieldKey | .fieldValue =>
        { p with pointFields := mapSet p.pointFields p.currentKey p.currentValue }
    | _ => p
  { p' with currentKey := "", currentValue := "" }

/-- Flush of a pending key/value pair (`if p.currentKey != "" {
p.appendTagOrField() }`), as performed both on a space token
(line_protocol.go lines 142-144) and at end of line (lines 181-183). -/
def appendPendingKey (p : LPParser) : LPParser :=
  if p.currentKey ≠ "" then appendTagOrField p else p

/-- One iteration of the token loop in `parse` (line_protocol.go lines 84-179),
i.e. the body of `for _, token := range line`.  Errors are the two
`invalid tag value token` cases. -/
def parseStep (p : LPParser) (c : Char) : Except String LPParser :=
  if c = '\\' then
    .ok { p with escape := true }
  else if c = '=' then
    if p.escape then .ok { appendToken p c with escape := false }
    else if p.currentState = .tagKey then .ok { p with currentState := .tagValue }
    else if p.currentState = .fieldKey then .ok { p with currentState := .fieldValue }
    else .ok p
  else if c = '"' then
    if p.escape then .ok { appendToken p c with escape := false }
    else if p.quota then .ok { p with quota := false }
    else .ok { p with quota := true }
  else if c = ',' then
    if p.escape then .ok { appendToken p c with escape := false }
    else
      match p.currentState with
      | .measurement => .ok { p with currentState := .tagKey }
      | .tagValue =>
          if p.bracket then .ok (appendToken p c)
          else .ok (appendTagOrField { p with currentState := .tagKey })
      | .fieldValue => .ok (appendTagOrField { p with currentState := .fieldKey })
      | _ => .ok p
  else if c = ' ' then
    if p.escape || p.quota then .ok { appendToken p c with escape := false }
    else
      match (appendPendingKey p).currentState with
      | .timestamp => .ok (appendPendingKey p)
      | .measurement | .tagKey | .tagValue =>
          .ok { appendPendingKey p with currentState := .fieldKey }
      | .fieldKey | .fieldValue =>
          .ok { appendPendingKey p with currentState := .timestamp }
  else if c = '[' then
    if p.escape || p.quota then .ok { appendToken p c with escape := false }
    else if p.currentState ≠ .tagValue then .error "invalid tag value token: '['"
    else .ok (appendToken { p with bracket := true } c)
  else if c = ']' then
    if p.escape || p.quota then .ok { appendToken p c with escape := false }
    else if p.currentState ≠ .tagValue then .error "invalid tag value token: ']'"
    else .ok (appendToken { p with bracket := false } c)
  else
    .ok (appendToken p c)

/-- The whole token loop of `parse`, folded over the characters of the line. -/
def foldSteps (p : LPParser) : List Char → Except String LPParser
  | [] => .ok p
  | c :: cs =>
    match parseStep p c with
    | .error e => .error e
    | .ok p' => foldSteps p' cs

/-- End-of-line handling of `parse` (line_protocol.go lines 181-199): flush the
pending key, resolve the timestamp (wall-clock `now` when `currentTime` is
empty, otherwise `strconv.Atoi`), reset `currentTime`, and reject a point with
no fields. -/
def finishLine (now : Int) (p : LPParser) : Except String (LPParser × Point) :=
  match (if (appendPendingKey p).currentTime = "" then Except.ok now
         else
           match atoiGo (appendPendingKey p).currentTime with
           | some n => Except.ok n
           | none => Except.error ("strconv.Atoi: parsing \""
               ++ (appendPendingKey p).currentTime ++ "\": invalid syntax")) with
  | .error e => .error e
  | .ok ts =>
    if (appendPendingKey p).pointFields = [] then .error "no fields input"
    else .ok ({ appendPendingKey p with currentTime := "" },
              { measurement := (appendPendingKey p).pointMeasurement,
                tags := (appendPendingKey p).pointTags,
                fields := (appendPendingKey p).pointFields, timestamp := ts })

/-- Embeds `parse` (line_protocol.go lines 76-200) on one (already trimmed,
non-empty) line: comment lines starting with `#` yield no point; otherwise the
current state and point are reset (the modifier flags, pending key/value and
`currentTime` carry over between lines, exactly as in the Go struct) and the
character loop runs, followed by the end-of-line handling.  `Parse` never
passes an empty line (it would panic on `line[0]` in Go). -/
def parseLine (now : Int) (p : LPParser) (line : List Char) : Except String (LPParser × Option Point) :=
  match line with
  | [] => .ok (p, none)
  | c :: cs =>
    if c = '#' then .ok (p, none)
    else
      match foldSteps { p with
        currentState := LPState.measurement,
        pointMeasurement := "", pointTags := [], pointFields := [] } (c :: cs) with
      | .error e => .error e
      | .ok p' =>
        match finishLine now p' with
        | .error e => .error e
        | .ok (q, pt) => .ok (q, some pt)

/-- Go `unicode.IsSpace` restricted to the ASCII space characters (all inputs
in this development are ASCII). -/
def isSpaceGo (c : Char) : Bool :=
  c = ' ' || c = '\t' || c = '\n' || c = '\x0B' || c = '\x0C' || c = '\r'

/-- `strings.TrimSpace` on a character list. -/
def trimChars (l : List Char) : List Char :=
  ((l.dropWhile isSpaceGo).reverse.dropWhile isSpaceGo).reverse

/-- Line splitting of `bufio.Scanner` modelled as splitting on `'\n'`
(empty tokens are skipped downstream as blank lines, so the scanner's
trailing-line subtleties are unobservable). -/
def splitNL : List Char → List (List Char)
  | [] => [[]]
  | c :: cs =>
    if c = '\n' then [] :: splitNL cs
    else
      match splitNL cs with
      | [] => [[c]]
      | l :: ls => (c :: l) :: ls

/-- The line loop of `Parse` (line_protocol.go lines 57-74): trim each line,
skip blanks, abort on the first error (returning it with no partial point
list), and collect the parsed points. -/
def parseLinesGo (now : Int) : LPParser → List (List Char) → Except String (List Point)
  | _, [] => .ok []
  | p, l :: ls =>
    if trimChars l = [] then parseLinesGo now p ls
    else
      match parseLine now p (trimChars l) with
      | .error e => .error e
      | .ok (p', none) => parseLinesGo now p' ls
      | .ok (p', some pt) =>
        match parseLinesGo now p' ls with
        | .error e => .error e
        | .ok pts => .ok (pt :: pts)

/-- Embeds `NewLineProtocolParser(raw).Parse()`, with the wall-clock value
`time.Now().UnixNano()` passed in as the parameter `now`. -/
def ParseLP (now : Int) (raw : String) : Except String (List Point) :=
  parseLinesGo now initLPParser (splitNL raw.toList)

/-! ## Batch dispatcher (`excuteByLPBuffer`, `clearBuffer`, the line-protocol
enqueue closure of `processLineProtocol`) from `src/prompt/completer.go` -/

/-- Embeds `excuteByLPBuffer` (completer.go lines 742-810) at the level of its
batch-buffer contract.  The joined first `min(batchSize, len)` buffer entries
are handed to the transport (`t` stands for the whole middle section: parsing,
request building and the remote write of either strategy, any of whose errors
become the returned error), and the deferred buffer update runs on every
return path: the whole buffer is cleared when it holds at most `batchSize`
entries, otherwise the first `batchSize` entries are dropped. -/
def excuteByLPBuffer (batchSize : Nat) (t : String → Except String Unit)
    (buf : List String) : Except String Unit × List String :=
  let lines := String.intercalate "\n" (buf.take (min batchSize buf.length))
  let err := t lines
  (err, if buf.length ≤ batchSize then [] else buf.drop batchSize)

/-- State observed by the line-protocol enqueue closure: the pending
`batchLPBuffer`, plus instrumentation recording each flush that occurred
(every call of `excuteByLPBuffer`) and the batch it took from the buffer. -/
structure EnqState where
  buffer : List String
  flushes : Nat
  sent : List (List String)
deriving DecidableEq, Repr

/-- Embeds the data-line closure returned by `processLineProtocol` in the DML
state (completer.go lines 605-615): fail when no database context is set,
otherwise append the data unit to `batchLPBuffer` and, once the buffer length
is no longer below `BatchSize`, flush via `excuteByLPBuffer`. -/
def enqueueLine (batchSize : Nat) (db : String) (t : String → Except String Unit)
    (st : EnqState) (data : String) : EnqState × Except String Unit :=
  if db = "" then
    (st, .error "database is required, make sure `# CONTEXT-DATABASE:` token is exist")
  else if (st.buffer ++ [data]).length < batchSize then
    ({ st with buffer := st.buffer ++ [data] }, .ok ())
  else
    ({ buffer := (excuteByLPBuffer batchSize t (st.buffer ++ [data])).2,
       flushes := st.flushes + 1,
       sent := st.sent ++ [(st.buffer ++ [data]).take
         (min batchSize (st.buffer ++ [data]).length)] },
     (excuteByLPBuffer batchSize t (st.buffer ++ [data])).1)

/-- The driving loop of `process` for line-protocol input: each data unit is
handed to the enqueue closure; errors are logged and the loop continues
(completer.go lines 404-434). -/
def enqueueAll (batchSize : Nat) (db : String) (t : String → Except String Unit)
    (st : EnqState) (datas : List String) : EnqState :=
  datas.foldl (fun s d => (enqueueLine batchSize db t s d).1) st

/-- The `for len(fsm.batchLPBuffer) != 0` loop of `clearBuffer`
(completer.go lines 548-551), with fuel; each round records the batch taken
from the buffer and the round's error.  `clearBufferLP` below supplies enough
fuel for the loop to run to completion. -/
def clearBufferLoop (batchSize : Nat) (t : String → Except String Unit) :
    Nat → List String → List (List String) × List (Except String Unit) × List String
  | 0, buf => ([], [], buf)
  | fuel + 1, buf =>
    if buf = [] then ([], [], buf)
    else
      (buf.take (min batchSize buf.length)
         :: (clearBufferLoop batchSize t fuel (excuteByLPBuffer batchSize t buf).2).1,
       (excuteByLPBuffer batchSize t buf).1
         :: (clearBufferLoop batchSize t fuel (excuteByLPBuffer batchSize t buf).2).2.1,
       (clearBufferLoop batchSize t fuel (excuteByLPBuffer batchSize t buf).2).2.2)

/-- The forced drain of the pending line buffer performed by `clearBuffer` at
end of input: rounds of `excuteByLPBuffer` until the buffer is empty. -/
def clearBufferLP (batchSize : Nat) (t : String → Except String Unit)
    (buf : List String) : List (List String) × List (Except String Unit) × List String :=
  clearBufferLoop batchSize t buf.length buf

/-- The error messages among a list of round results. -/
def errMsgs (es : List (Except String Unit)) : List String :=
  es.filterMap (fun e => match e with | .error m => some m | .ok _ => none)

/-- Embeds `errors.Join` over the per-round errors accumulated by
`clearBuffer` (`errs = errors.Join(errs, err)`): `nil` results are dropped,
a `nil` aggregate is returned when every round succeeded, and otherwise the
messages are joined by newlines into one error. -/
def joinErrs (es : List (Except String Unit)) : Option String :=
  match errMsgs es with
  | [] => none
  | ms => some (String.intercalate "\n" ms)

/-- The single result reported by `clearBuffer` for the line-buffer loop
(completer.go lines 545-558). -/
def clearBufferResult (batchSize : Nat) (t : String → Except String Unit)
    (buf : List String) : Option String :=
  joinErrs (clearBufferLP batchSize t buf).2.1

/-- Embeds the response-code switch of the column-write path of
`excuteByLPBuffer` (completer.go lines 796-805): `none` is success, `some`
carries the error message built by `fmt.Errorf`. -/
def writeResponseError (code : Int) : Option String :=
  if code = 0 then none
  else if code = 1 then some ("write failed, code: " ++ toString code ++ ", partial write failure")
  else if code = 2 then some ("write failed, code: " ++ toString code ++ ", write failure")
  else some ("unexpected response code: " ++ toString code)

/-! ## CSV import (`processCSV`, `parseTimestamp2Int64`) from
`src/prompt/completer.go` -/

/-- `FieldPos` (completer.go lines 535-538). -/
structure FieldPos where
  Name : String
  Pos : Nat
deriving DecidableEq, Repr

/-- A Go `map[string]FieldPos`, as an association list. -/
abbrev FPMap := List (String × FieldPos)

/-- Lookup in a `FPMap` (first matching key). -/
def fpLookup : FPMap → String → Option FieldPos
  | [], _ => none
  | (k, v) :: rest, f => if k = f then some v else fpLookup rest f

/-- Go-map membership test (`_, ok := m[k]`). -/
def fpHasKey (m : FPMap) (k : String) : Bool := (fpLookup m k).isSome

/-- Go-map read with zero value (`m[k]` yields `FieldPos{}` for a missing key). -/
def fpGetZero (m : FPMap) (k : String) : FieldPos := (fpLookup m k).getD ⟨"", 0⟩

/-- Go-map assignment (`m[k] = v`): replace at the first occurrence of the
key, append when absent. -/
def fpSet : FPMap → String → FieldPos → FPMap
  | [], k, v => [(k, v)]
  | (k', v') :: rest, k, v =>
    if k' = k then (k, v) :: rest else (k', v') :: fpSet rest k v

/-- Seeding of `tagMap`/`fieldMap` with zero-valued entries for every
configured name (completer.go lines 645-651). -/
def seedMap (names : List String) : FPMap :=
  names.foldl (fun m n => fpSet m n ⟨"", 0⟩) []

/-- The configuration fields of `ImportConfig`/`CommandLineConfig` consumed by
the CSV adapter. -/
structure CsvConfig where
  Database : String
  RetentionPolicy : String
  Measurement : String
  TimeField : String
  Tags : List String
  Fields : List String
  BatchSize : Nat
  TimeMultiplier : Int
deriving Repr

/-- `ImportState` (completer.go lines 516-521). -/
inductive ImportState where
  | ddl
  | dml
deriving DecidableEq, Repr

/-- The fields of `ImportFileFSM` used by the CSV path
(completer.go lines 523-533). -/
structure CsvFsm where
  state : ImportState
  database : String
  retentionPolicy : String
  measurement : String
  tagMap : FPMap
  fieldMap : FPMap
  timeField : FieldPos
  batchPointBuffer : List Point
deriving DecidableEq, Repr

/-- The zero-valued `ImportFileFSM` created by `Run`. -/
def initCsvFsm : CsvFsm :=
  { state := .ddl, database := "", retentionPolicy := "", measurement := "",
    tagMap := [], fieldMap := [], timeField := ⟨"", 0⟩, batchPointBuffer := [] }

/-- Strips the byte-order mark U+FEFF from the first header cell
(`data[0] = strings.TrimPrefix(data[0], BOM)`, completer.go line 653). -/
def stripHeaderBom : List String → List String
  | [] => []
  | d :: rest =>
    (match d.toList with
     | c :: cs => if c = '\uFEFF' then String.mk cs else d
     | [] => d) :: rest

/-- The header column scan (completer.go lines 656-677): each column name is
matched against the configured tag map, then the field map, then the time
field; an unmatched column becomes a field when no `--field` list was
configured, and is ignored otherwise. -/
def scanColumns (cfg : CsvConfig) (fsm : CsvFsm) : List (String × Nat) → CsvFsm
  | [] => fsm
  | (datum, idx) :: rest =>
    let fsm' :=
      if fpHasKey fsm.tagMap datum then
        { fsm with tagMap := fpSet fsm.tagMap datum ⟨datum, idx⟩ }
      else if fpHasKey fsm.fieldMap datum then
        { fsm with fieldMap := fpSet fsm.fieldMap datum ⟨datum, idx⟩ }
      else if cfg.TimeField = datum then
        { fsm with timeField := ⟨datum, idx⟩ }
      else if cfg.Fields = [] then
        { fsm with fieldMap := fpSet fsm.fieldMap datum ⟨datum, idx⟩ }
      else fsm
    scanColumns cfg fsm' rest

/-- The configured-field validation loop (completer.go lines 678-685):
the first configured field missing from the header (zero-valued entry) or
claimed by the tag map produces the error. -/
def checkFields (fm tm : FPMap) : List String → Option String
  | [] => none
  | f :: fs =>
    if (fpGetZero fm f).Name = "" then
      some ("field name (" ++ f ++ ") not in csv header")
    else if fpHasKey tm f then some (f ++ " is in both tags and fields")
    else checkFields fm tm fs

/-- The configured-tag validation loop (completer.go lines 687-694). -/
def checkTags (tm fm : FPMap) : List String → Option String
  | [] => none
  | tg :: ts =>
    if (fpGetZero tm tg).Name = "" then
      some ("tag name (" ++ tg ++ ") not in csv header")
    else if fpHasKey fm tg then some (tg ++ " is in both tags and fields")
    else checkTags tm fm ts

/-- Context assignments done by the header closure before the column scan
(completer.go lines 639-651): target names from the configuration and the
seeded tag/field maps. -/
def headerSeeded (cfg : CsvConfig) (fsm : CsvFsm) : CsvFsm :=
  { fsm with
    database := cfg.Database, retentionPolicy := cfg.RetentionPolicy,
    measurement := cfg.Measurement,
    tagMap := seedMap cfg.Tags, fieldMap := seedMap cfg.Fields }

/-- The FSM after the header column scan over the BOM-stripped header cells
paired with their indices (completer.go lines 652-677). -/
def headerScanned (cfg : CsvConfig) (fsm : CsvFsm) (data : List String) : CsvFsm :=
  scanColumns cfg (headerSeeded cfg fsm)
    ((stripHeaderBom data).zip (List.range (stripHeaderBom data).length))

/-- Embeds the header closure of `processCSV` (completer.go lines 628-701),
which runs after the FSM state was already advanced to DML.  `queryErr` is the
result of the `CREATE DATABASE` call through the query collaborator; on its
failure the closure returns before populating the context.  Mutations made
before a validation failure persist in the FSM (it is updated through a
pointer in Go). -/
def processCSVHeader (cfg : CsvConfig) (queryErr : Option String)
    (fsm : CsvFsm) (data : List String) : CsvFsm × Option String :=
  match queryErr with
  | some e => (fsm, some e)
  | none =>
    match checkFields (headerScanned cfg fsm data).fieldMap
        (headerScanned cfg fsm data).tagMap cfg.Fields with
    | some e => (headerScanned cfg fsm data, some e)
    | none =>
      match checkTags (headerScanned cfg fsm data).tagMap
          (headerScanned cfg fsm data).fieldMap cfg.Tags with
      | some e => (headerScanned cfg fsm data, some e)
      | none =>
        if (headerScanned cfg fsm data).timeField.Name = "" then
          (headerScanned cfg fsm data,
           some ("time name not in csv header " ++ cfg.TimeField))
        else (headerScanned cfg fsm data, none)

/-- Modelled from the spec: `fastfloat.ParseBestEffort` from the external
`valyala/fastjson` library (a dependency, not part of this repository) parses
the whole string as a number and returns 0 when the string is not a valid
number; the `int64` conversion in `parseTimestamp2Int64` truncates toward
zero.  Modelled here for plain integer and `a.b` decimal forms; every other
string is invalid (`none`), which the caller turns into 0. -/
def parseBestEffortMagnitude (cs : List Char) : Option Nat :=
  match cs.splitOn '.' with
  | [ip] => if ip ≠ [] ∧ allDigits ip then some (digitsVal ip) else none
  | [ip, fp] =>
    if ip ≠ [] ∧ fp ≠ [] ∧ allDigits ip ∧ allDigits fp then some (digitsVal ip)
    else none
  | _ => none

/-- The optional-sign wrapper of the best-effort numeric parse; `none` is the
"not a valid number" outcome that `fastfloat.ParseBestEffort` maps to 0. -/
def parseBestEffortOpt (s : String) : Option Int :=
  match s.toList with
  | '+' :: rest => (parseBestEffortMagnitude rest).map (fun n => (n : Int))
  | '-' :: rest => (parseBestEffortMagnitude rest).map (fun n => -(n : Int))
  | cs => (parseBestEffortMagnitude cs).map (fun n => (n : Int))

/-- Embeds `parseTimestamp2Int64` (completer.go lines 873-876): the
best-effort numeric value of the string (0 when invalid) times the configured
time multiplier. -/
def parseTimestamp2Int64 (timeMultiplier : Int) (s : String) : Int :=
  ((parseBestEffortOpt s).getD 0) * timeMultiplier

/-- Embeds the data-row closure of `processCSV` (completer.go lines 703-737):
validate the context, build a `Point` from the resolved column positions,
append it to `batchPointBuffer` and flush once the batch size is reached.
`flushErr` is the outcome of `executeByPointBuffer`'s transport write (its
deferred buffer reset is the `batchPointBuffer := []`); row cells are read
with a default for out-of-range positions (Go would panic there, and the CSV
reader guarantees uniform row lengths). -/
def processCSVRow (cfg : CsvConfig) (flushErr : Option String)
    (fsm : CsvFsm) (data : List String) : CsvFsm × Option String :=
  if fsm.database = "" then (fsm, some "database is required")
  else
    let fsm1 := if fsm.retentionPolicy = "" then { fsm with retentionPolicy := "autogen" } else fsm
    if cfg.Measurement = "" then (fsm1, some "measurement is required")
    else if fsm1.fieldMap = [] then (fsm1, some "field is required")
    else
      let point : Point :=
        { measurement := cfg.Measurement,
          timestamp := parseTimestamp2Int64 cfg.TimeMultiplier (data.getD fsm1.timeField.Pos ""),
          tags := fsm1.tagMap.foldl (fun m kv => mapSet m kv.2.Name (data.getD kv.2.Pos "")) [],
          fields := fsm1.fieldMap.foldl (fun m kv => mapSet m kv.2.Name (data.getD kv.2.Pos "")) [] }
      let fsm2 := { fsm1 with batchPointBuffer := fsm1.batchPointBuffer ++ [point] }
      if fsm2.batchPointBuffer.length < cfg.BatchSize then (fsm2, none)
      else ({ fsm2 with batchPointBuffer := [] }, flushErr)

/-- Embeds one `processCSV` dispatch plus the invocation of the returned
closure (completer.go lines 620-739): empty rows are skipped, the first
(header) row advances the FSM to DML before its closure runs, and data rows
go through the data closure. -/
def processCSVStep (cfg : CsvConfig) (queryErr flushErr : Option String)
    (fsm : CsvFsm) (data : List String) : CsvFsm × Option String :=
  if data = [] then (fsm, none)
  else
    match fsm.state with
    | .ddl => processCSVHeader cfg queryErr { fsm with state := .dml } data
    | .dml => processCSVRow cfg flushErr fsm data

/-- The CSV driving loop of `process` (completer.go lines 440-463): every
row's error is logged and the loop continues with the next row.  Returns the
final FSM and the per-row results. -/
def processCSVFile (cfg : CsvConfig) (queryErr flushErr : Option String) :
    CsvFsm → List (List String) → CsvFsm × List (Option String)
  | fsm, [] => (fsm, [])
  | fsm, row :: rows =>
    let r := processCSVStep cfg queryErr flushErr fsm row
    let rest := processCSVFile cfg queryErr flushErr r.1 rows
    (rest.1, r.2 :: rest.2)

/-! ## Theorems for the claims -/

/-- C2: the flush operation applies the transport to the first
`min(batchSize, length)` buffered units joined by newlines and, on return,
has removed exactly those units from the front of the buffer — the whole
buffer when it holds at most one batch, only the first `batchSize` elements
otherwise — and the buffer update does not depend on the transport's result,
so a failed batch's units are dropped rather than retained. -/
theorem C2_flush_buffer_update (batchSize : Nat) (t t' : String → Except String Unit)
    (buf : List String) :
    (excuteByLPBuffer batchSize t buf).1
        = t (String.intercalate "\n" (buf.take (min batchSize buf.length)))
    ∧ (excuteByLPBuffer batchSize t buf).2
        = (if buf.length ≤ batchSize then [] else buf.drop batchSize)
    ∧ (excuteByLPBuffer batchSize t buf).2 = buf.drop batchSize
    ∧ (excuteByLPBuffer batchSize t buf).2 = (excuteByLPBuffer batchSize t' buf).2 := by
  refine ⟨rfl, rfl, ?_, rfl⟩
  by_cases h : buf.length ≤ batchSize
  · simp only [excuteByLPBuffer, if_pos h]
    exact (List.drop_eq_nil_iff.mpr h).symm
  · simp only [excuteByLPBuffer, if_neg h]

/-- C4: the column-write response-code mapping — code 0 is success with no
error; code 1 yields an error mentioning "partial write failure"; code 2 an
error mentioning "write failure"; any other code an "unexpected response
code" error. -/
theorem C4_response_code_mapping :
    writeResponseError 0 = none
    ∧ (∃ m, writeResponseError 1 = some m
        ∧ "partial write failure".toList <:+: m.toList)
    ∧ (∃ m, writeResponseError 2 = some m
        ∧ "write failure".toList <:+: m.toList)
    ∧ (∀ code : Int, code ≠ 0 → code ≠ 1 → code ≠ 2 →
        ∃ m, writeResponseError code = some m
          ∧ "unexpected response code".toList <:+: m.toList) := by
  refine ⟨rfl, ⟨_, rfl, by decide⟩, ⟨_, rfl, by decide⟩, ?_⟩
  intro code h0 h1 h2
  refine ⟨"unexpected response code: " ++ toString code, ?_, ?_⟩
  · simp [writeResponseError, h0, h1, h2]
  · exact ("unexpected response code".toList.prefix_append _).isInfix

/-- C4 witness: the general branch instantiated at response code 7. -/
theorem C4_witness :
    ∃ m, writeResponseError 7 = some m
      ∧ "unexpected response code".toList <:+: m.toList :=
  C4_response_code_mapping.2.2.2 7 (by norm_num) (by norm_num) (by norm_num)

/-- C6 (code bug): the line `mst,t1=1 v1=1 abc` carries the non-decimal
timestamp token `abc`, yet `Parse` accepts it and returns the point with the
wall-clock default timestamp (here `now = 1`): `appendToken` discards
characters while in the `Timestamp` state, so `currentTime` is never
populated and the `strconv.Atoi` hard-error branch of `parse` is
unreachable. -/
theorem C6_nonnumeric_timestamp_accepted :
    ParseLP 1 "mst,t1=1 v1=1 abc"
      = .ok [{ measurement := "mst", tags := [("t1", "1")],
               fields := [("v1", "1")], timestamp := 1 }] := by
  rfl

/-- C9: a bracketed tag value is kept as one literal tag string — parsing
`mst,t1=[a,b] v1=1 123` yields exactly the single tag `t1 = "[a,b]"` — and a
`[` or `]` read while not in the TagValue state (and not under escape or
quote) is the parse error "invalid tag value token". -/
theorem C9_bracket_tag_value (p : LPParser) :
    ParseLP 1 "mst,t1=[a,b] v1=1 123"
      = .ok [{ measurement := "mst", tags := [("t1", "[a,b]")],
               fields := [("v1", "1")], timestamp := 1 }]
    ∧ (p.escape = false → p.quota = false → p.currentState ≠ .tagValue →
        parseStep p '[' = .error "invalid tag value token: '['"
        ∧ parseStep p ']' = .error "invalid tag value token: ']'") := by
  refine ⟨rfl, fun he hq hs => ⟨?_, ?_⟩⟩ <;>
    simp [parseStep, he, hq, hs]

/-- C9 witness: the error branch at the initial parser state (Measurement
state) for both bracket characters. -/
theorem C9_witness :
    parseStep initLPParser '[' = .error "invalid tag value token: '['"
    ∧ parseStep initLPParser ']' = .error "invalid tag value token: ']'" :=
  (C9_bracket_tag_value initLPParser).2 rfl rfl (by decide)

/-- `appendToken` never changes the escape flag. -/
theorem appendToken_escape (p : LPParser) (c : Char) :
    (appendToken p c).escape = p.escape := by
  unfold appendToken
  cases p.currentState <;> rfl

/-- C5 counterexample: after `\a` the escape flag is still set — it was not
consumed by the (non-structural) character `a` — so on the line
`mst\a,t1=1 v1=1` the comma following `\a` is still treated as escaped and
ends up inside the measurement name, instead of the tag separation the claim
predicts (measurement `msta` with tag `t1`). -/
theorem C5_counterexample :
    (foldSteps initLPParser ['\\', 'a']).map LPParser.escape = .ok true
    ∧ (foldSteps initLPParser ['\\', 'a']).map LPParser.escape ≠ .ok false
    ∧ ParseLP 1 "mst\\a,t1=1 v1=1"
        = .ok [{ measurement := "msta,t11", tags := [],
                 fields := [("v1", "1")], timestamp := 1 }] := by
  refine ⟨rfl, ?_, rfl⟩
  have h1 : (foldSteps initLPParser ['\\', 'a']).map LPParser.escape = .ok true := rfl
  rw [h1]
  simp

/-- C5 (amended): a backslash sets the escape flag; a subsequent structural
character (`=`, `"`, `,`, space, `[`, `]`) is appended literally and clears
the flag — so escaped structural characters appear literally in the parsed
output, e.g. `mst\,1,t1=1 v1=1 123` parses to measurement `mst,1` — but a
non-structural character is appended without consuming the flag, which stays
set for the following character. -/
theorem C5_escape_amended (p : LPParser) (c : Char) :
    (c = '\\' → parseStep p c = .ok { p with escape := true })
    ∧ (p.escape = true →
        (c = '=' ∨ c = '"' ∨ c = ',' ∨ c = ' ' ∨ c = '[' ∨ c = ']') →
        parseStep p c = .ok { appendToken p c with escape := false })
    ∧ (p.escape = true → c ≠ '\\' →
        ¬(c = '=' ∨ c = '"' ∨ c = ',' ∨ c = ' ' ∨ c = '[' ∨ c = ']') →
        parseStep p c = .ok (appendToken p c) ∧ (appendToken p c).escape = true)
    ∧ ParseLP 1 "mst\\,1,t1=1 v1=1 123"
        = .ok [{ measurement := "mst,1", tags := [("t1", "1")],
                 fields := [("v1", "1")], timestamp := 1 }] := by
  refine ⟨fun hc => ?_, fun he hc => ?_, fun he hc hns => ⟨?_, ?_⟩, rfl⟩
  · subst hc; rfl
  · rcases hc with hc | hc | hc | hc | hc | hc <;> subst hc <;>
      simp [parseStep, he]
  · push_neg at hns
    obtain ⟨h1, h2, h3, h4, h5, h6⟩ := hns
    simp [parseStep, he, hc, h1, h2, h3, h4, h5, h6]
  · rw [appendToken_escape]; exact he

/-- C5 witness: the amended escape behaviour at concrete inputs — an escaped
comma is consumed (flag cleared), while an escaped `a` leaves the flag set. -/
theorem C5_witness :
    parseStep { initLPParser with escape := true } ','
        = .ok { appendToken { initLPParser with escape := true } ',' with escape := false }
    ∧ parseStep { initLPParser with escape := true } 'a'
        = .ok (appendToken { initLPParser with escape := true } 'a')
    ∧ (appendToken { initLPParser with escape := true } 'a').escape = true :=
  ⟨(C5_escape_amended { initLPParser with escape := true } ',').2.1 rfl (by decide),
   ((C5_escape_amended { initLPParser with escape := true } 'a').2.2.1 rfl
      (by decide) (by decide)).1,
   ((C5_escape_amended { initLPParser with escape := true } 'a').2.2.1 rfl
      (by decide) (by decide)).2⟩

/-- `appendToken` never changes `currentTime`. -/
theorem appendToken_currentTime (p : LPParser) (c : Char) :
    (appendToken p c).currentTime = p.currentTime := by
  unfold appendToken
  cases p.currentState <;> rfl

/-- `appendTagOrField` never changes `currentTime`. -/
theorem appendTagOrField_currentTime (p : LPParser) :
    (appendTagOrField p).currentTime = p.currentTime := by
  unfold appendTagOrField
  cases p.currentState <;> rfl

/-- `appendPendingKey` never changes `currentTime`. -/
theorem appendPendingKey_currentTime (p : LPParser) :
    (appendPendingKey p).currentTime = p.currentTime := by
  unfold appendPendingKey
  split
  · exact appendTagOrField_currentTime p
  · rfl

/-- A successful tokenizer step never changes `currentTime` (there is no
assignment to it anywhere in the token loop — in particular `appendToken`
discards characters seen in the `Timestamp` state). -/
theorem parseStep_ok_currentTime {p : LPParser} {c : Char} {q : LPParser}
    (h : parseStep p c = .ok q) : q.currentTime = p.currentTime := by
  unfold parseStep at h
  repeat' split at h
  all_goals cases h
  all_goals simp [appendToken_currentTime, appendTagOrField_currentTime,
    appendPendingKey_currentTime]

/-- A successful run of the token loop never changes `currentTime`. -/
theorem foldSteps_ok_currentTime :
    ∀ (cs : List Char) (p q : LPParser), foldSteps p cs = .ok q →
      q.currentTime = p.currentTime := by
  intro cs
  induction cs with
  | nil => intro p q h; cases h; rfl
  | cons c cs ih =>
    intro p q h
    unfold foldSteps at h
    split at h
    · cases h
    · next p' heq =>
        exact (ih p' q h).trans (parseStep_ok_currentTime heq)

/-- Reduction of the end-of-line handling when `currentTime` is empty (as it
always is for lines reached from `Parse`): the timestamp is the wall-clock
value `now` and the only possible failure is the empty field map. -/
theorem finishLine_eq (now : Int) (p : LPParser) (hct : p.currentTime = "") :
    finishLine now p =
      if (appendPendingKey p).pointFields = [] then .error "no fields input"
      else .ok ({ appendPendingKey p with currentTime := "" },
                { measurement := (appendPendingKey p).pointMeasurement,
                  tags := (appendPendingKey p).pointTags,
                  fields := (appendPendingKey p).pointFields, timestamp := now }) := by
  have hp1 : (appendPendingKey p).currentTime = "" :=
    (appendPendingKey_currentTime p).trans hct
  unfold finishLine
  rw [if_pos hp1]

/-- When `currentTime` is empty going into the end-of-line handling, a
successful `finishLine` leaves it empty and stamps the point with the
wall-clock value `now`. -/
theorem finishLine_ok {now : Int} {p : LPParser} {q : LPParser} {pt : Point}
    (hct : p.currentTime = "") (h : finishLine now p = .ok (q, pt)) :
    q.currentTime = "" ∧ pt.timestamp = now := by
  rw [finishLine_eq now p hct] at h
  split at h
  · cases h
  · cases h
    exact ⟨rfl, rfl⟩

/-- When `currentTime` is empty in the carried parser state, a successful
`parseLine` keeps it empty and any produced point carries timestamp `now`. -/
theorem parseLine_ok {now : Int} {p : LPParser} {l : List Char}
    {q : LPParser} {r : Option Point} (hct : p.currentTime = "")
    (h : parseLine now p l = .ok (q, r)) :
    q.currentTime = "" ∧ ∀ pt, r = some pt → pt.timestamp = now := by
  unfold parseLine at h
  split at h
  · cases h
    exact ⟨hct, fun pt hpt => by cases hpt⟩
  · split at h
    · cases h
      exact ⟨hct, fun pt hpt => by cases hpt⟩
    · split at h
      · cases h
      · next p' heq =>
          split at h
          · cases h
          · next q' pt' heq2 =>
              cases h
              have hp' : p'.currentTime = "" := by
                have := foldSteps_ok_currentTime _ _ _ heq
                simpa [hct] using this
              obtain ⟨h1, h2⟩ := finishLine_ok hp' heq2
              exact ⟨h1, fun pt hpt => by cases hpt; exact h2⟩

/-- Every point produced by the line loop of `Parse` carries timestamp `now`
when the carried `currentTime` starts empty. -/
theorem parseLinesGo_timestamp {now : Int} :
    ∀ (ls : List (List Char)) (p : LPParser) (pts : List Point),
      p.currentTime = "" → parseLinesGo now p ls = .ok pts →
      ∀ pt ∈ pts, pt.timestamp = now := by
  intro ls
  induction ls with
  | nil =>
    intro p pts _ h pt hpt
    cases h
    cases hpt
  | cons l ls ih =>
    intro p pts hct h pt hpt
    unfold parseLinesGo at h
    split at h
    · exact ih p pts hct h pt hpt
    · split at h
      · cases h
      · next p' heq =>
          obtain ⟨h1, _⟩ := parseLine_ok hct heq
          exact ih p' pts h1 h pt hpt
      · next p' pt' heq =>
          obtain ⟨h1, h2⟩ := parseLine_ok hct heq
          split at h
          · cases h
          · next pts' heq2 =>
              cases h
              rcases List.mem_cons.mp hpt with hpt | hpt
              · subst hpt; exact h2 pt rfl
              · exact ih p' pts' h1 heq2 pt hpt

/-- C8: a line whose parsed field map is empty is rejected with the
"no fields input" error (no point produced), and every point returned by
`Parse` — in particular one from a line with no timestamp token — carries the
wall-clock default timestamp `now`, which is non-zero whenever the wall clock
is positive. -/
theorem C8_no_fields_and_default_timestamp (now : Int) (raw : String) (p : LPParser) :
    (0 < now → ∀ pts pt, ParseLP now raw = .ok pts → pt ∈ pts →
        pt.timestamp = now ∧ pt.timestamp ≠ 0)
    ∧ (p.currentTime = "" → (appendPendingKey p).pointFields = [] →
        finishLine now p = .error "no fields input") := by
  constructor
  · intro hnow pts pt h hmem
    have := @parseLinesGo_timestamp now _ initLPParser pts rfl h pt hmem
    exact ⟨this, by omega⟩
  · intro hct hfl
    rw [finishLine_eq now p hct, if_pos hfl]

/-- C8 witness: the point from `mst,t1=1 v1=1` (no timestamp token) receives
the wall-clock value 1, and the fieldless line state (the empty initial
parser at end of line) is rejected with "no fields input". -/
theorem C8_witness :
    ((Point.mk "mst" [("t1", "1")] [("v1", "1")] 1).timestamp = 1
      ∧ (Point.mk "mst" [("t1", "1")] [("v1", "1")] 1).timestamp ≠ 0)
    ∧ finishLine 1 initLPParser = .error "no fields input" :=
  ⟨(C8_no_fields_and_default_timestamp 1 "mst,t1=1 v1=1" initLPParser).1
      (by norm_num) [Point.mk "mst" [("t1", "1")] [("v1", "1")] 1]
      (Point.mk "mst" [("t1", "1")] [("v1", "1")] 1) rfl (by simp),
   (C8_no_fields_and_default_timestamp 1 "" initLPParser).2 rfl rfl⟩

/-- Unrolling one unit through the driving loop. -/
theorem enqueueAll_cons (batchSize : Nat) (db : String) (t : String → Except String Unit)
    (st : EnqState) (d : String) (ds : List String) :
    enqueueAll batchSize db t st (d :: ds)
      = enqueueAll batchSize db t (enqueueLine batchSize db t st d).1 ds := rfl

/-- Splitting the driving loop across a list append. -/
theorem enqueueAll_append (batchSize : Nat) (db : String) (t : String → Except String Unit)
    (st : EnqState) (xs ys : List String) :
    enqueueAll batchSize db t st (xs ++ ys)
      = enqueueAll batchSize db t (enqueueAll batchSize db t st xs) ys := by
  simp [enqueueAll, List.foldl_append]

/-- While the buffer stays strictly below the batch size, enqueuing only
appends: no flush happens and neither `flushes` nor `sent` changes. -/
theorem enqueueAll_noflush (batchSize : Nat) (db : String)
    (t : String → Except String Unit) (hdb : db ≠ "") :
    ∀ (ds : List String) (st : EnqState),
      st.buffer.length + ds.length < batchSize →
      enqueueAll batchSize db t st ds = { st with buffer := st.buffer ++ ds } := by
  intro ds
  induction ds with
  | nil => intro st _; simp [enqueueAll]
  | cons d ds ih =>
    intro st h
    rw [enqueueAll_cons]
    have hlt : (st.buffer ++ [d]).length < batchSize := by
      simp only [List.length_append, List.length_cons, List.length_nil] at h ⊢
      omega
    have hstep : (enqueueLine batchSize db t st d).1
        = { st with buffer := st.buffer ++ [d] } := by
      have hlt' : st.buffer.length + 1 < batchSize := by simpa using hlt
      simp [enqueueLine, hdb, hlt']
    rw [hstep, ih { st with buffer := st.buffer ++ [d] }
      (by simp only [List.length_append, List.length_cons, List.length_nil] at h ⊢; omega)]
    simp

/-- C1: with batch size `N ≥ 1` and a non-empty database context, enqueuing
`N + k` data units (`0 < k < N`) into an empty pending line buffer triggers
exactly one automatic flush — of exactly the first `N` units — and leaves
exactly the remaining `k` units pending. -/
theorem C1_batch_enqueue_flush (N k : Nat) (db : String)
    (t : String → Except String Unit) (datas : List String)
    (hN : 1 ≤ N) (hdb : db ≠ "") (hk0 : 0 < k) (hkN : k < N)
    (hlen : datas.length = N + k) :
    (enqueueAll N db t ⟨[], 0, []⟩ datas).flushes = 1
    ∧ (enqueueAll N db t ⟨[], 0, []⟩ datas).buffer = datas.drop N
    ∧ (enqueueAll N db t ⟨[], 0, []⟩ datas).buffer.length = k
    ∧ (enqueueAll N db t ⟨[], 0, []⟩ datas).sent = [datas.take N] := by
  have htake : (datas.take N).length = N := by
    rw [List.length_take]; omega
  rcases (datas.take N).eq_nil_or_concat with hcon | ⟨A, a, hAa⟩
  · rw [hcon] at htake; simp at htake; omega
  · rw [List.concat_eq_append] at hAa
    have hAlen : A.length = N - 1 := by
      rw [hAa] at htake
      simp only [List.length_append, List.length_cons, List.length_nil] at htake
      omega
    have hdecomp : datas = (A ++ [a]) ++ datas.drop N := by
      rw [← hAa]; exact (List.take_append_drop N datas).symm
    have hdroplen : (datas.drop N).length = k := by
      rw [List.length_drop]; omega
    have hfull : (A ++ [a]).length = N := by rw [← hAa]; exact htake
    -- run the first N - 1 units: no flush
    have h1 : enqueueAll N db t ⟨[], 0, []⟩ A = ⟨A, 0, []⟩ := by
      rw [enqueueAll_noflush N db t hdb A ⟨[], 0, []⟩ (by simp [hAlen]; omega)]
      simp
    -- the N-th unit triggers the single flush and clears the buffer
    have h2 : (enqueueLine N db t ⟨A, 0, []⟩ a).1 = ⟨[], 1, [A ++ [a]]⟩ := by
      have hnotlt : ¬ ((A ++ [a]).length < N) := by omega
      simp only [enqueueLine, if_neg hdb]
      rw [if_neg (by simpa using hnotlt)]
      simp only [excuteByLPBuffer]
      rw [if_pos (by omega : (A ++ [a]).length ≤ N)]
      rw [hfull, Nat.min_self, List.take_of_length_le (le_of_eq hfull)]
      simp
    -- the k remaining units: no flush
    have h3 : enqueueAll N db t ⟨[], 1, [A ++ [a]]⟩ (datas.drop N)
        = ⟨datas.drop N, 1, [A ++ [a]]⟩ := by
      rw [enqueueAll_noflush N db t hdb (datas.drop N) ⟨[], 1, [A ++ [a]]⟩
        (by simp [hdroplen]; omega)]
      simp
    have hrun : enqueueAll N db t ⟨[], 0, []⟩ datas
        = ⟨datas.drop N, 1, [A ++ [a]]⟩ := by
      conv_lhs => rw [hdecomp]
      rw [enqueueAll_append, enqueueAll_append, h1]
      rw [show enqueueAll N db t ⟨A, 0, []⟩ [a]
            = (enqueueLine N db t ⟨A, 0, []⟩ a).1 from rfl]
      rw [h2, h3]
    rw [hrun, hAa]
    exact ⟨rfl, rfl, hdroplen, rfl⟩

/-- C1 witness: batch size 2 with units `a b c` — one flush of `[a, b]`,
with `[c]` left pending. -/
theorem C1_witness :
    (enqueueAll 2 "db" (fun _ => Except.ok ()) ⟨[], 0, []⟩ ["a", "b", "c"]).flushes = 1
    ∧ (enqueueAll 2 "db" (fun _ => Except.ok ()) ⟨[], 0, []⟩ ["a", "b", "c"]).buffer
        = ["a", "b", "c"].drop 2
    ∧ (enqueueAll 2 "db" (fun _ => Except.ok ()) ⟨[], 0, []⟩ ["a", "b", "c"]).buffer.length = 1
    ∧ (enqueueAll 2 "db" (fun _ => Except.ok ()) ⟨[], 0, []⟩ ["a", "b", "c"]).sent
        = [["a", "b", "c"].take 2] :=
  C1_batch_enqueue_flush 2 1 "db" (fun _ => Except.ok ()) ["a", "b", "c"]
    (by norm_num) (by decide) (by norm_num) (by norm_num) (by decide)

/-- Complete characterisation of the drain loop with sufficient fuel: the
buffer ends empty, the number of rounds is `⌈n/N⌉`, the batches concatenate
back to the starting buffer (each unit sent in exactly one round), and the
round results are exactly the transport outcomes of the joined batches. -/
theorem clearBufferLoop_spec (N : Nat) (t : String → Except String Unit) (hN : 1 ≤ N) :
    ∀ (fuel : Nat) (buf : List String), buf.length ≤ fuel →
      (clearBufferLoop N t fuel buf).2.2 = []
      ∧ (clearBufferLoop N t fuel buf).1.length = (buf.length + N - 1) / N
      ∧ (clearBufferLoop N t fuel buf).1.flatten = buf
      ∧ (clearBufferLoop N t fuel buf).2.1
          = (clearBufferLoop N t fuel buf).1.map
              (fun b => t (String.intercalate "\n" b)) := by
  intro fuel
  induction fuel with
  | zero =>
    intro buf hle
    have hbuf : buf = [] := List.length_eq_zero.mp (Nat.le_zero.mp hle)
    subst hbuf
    refine ⟨rfl, ?_, rfl, rfl⟩
    show (0 : Nat) = (0 + N - 1) / N
    rw [Nat.div_eq_of_lt (by omega)]
  | succ fuel ih =>
    intro buf hle
    by_cases hb : buf = []
    · subst hb
      refine ⟨rfl, ?_, rfl, rfl⟩
      show (0 : Nat) = (0 + N - 1) / N
      rw [Nat.div_eq_of_lt (by omega)]
    · have hlen0 : 0 < buf.length := List.length_pos.mpr hb
      have hr2eq : (excuteByLPBuffer N t buf).2
          = if buf.length ≤ N then [] else buf.drop N := rfl
      have hr2len : (excuteByLPBuffer N t buf).2.length ≤ fuel := by
        rw [hr2eq]; split
        · simp
        · rw [List.length_drop]; omega
      obtain ⟨ih1, ih2, ih3, ih4⟩ := ih (excuteByLPBuffer N t buf).2 hr2len
      have hstep : clearBufferLoop N t (fuel + 1) buf
          = (buf.take (min N buf.length)
               :: (clearBufferLoop N t fuel (excuteByLPBuffer N t buf).2).1,
             (excuteByLPBuffer N t buf).1
               :: (clearBufferLoop N t fuel (excuteByLPBuffer N t buf).2).2.1,
             (clearBufferLoop N t fuel (excuteByLPBuffer N t buf).2).2.2) := by
        simp [clearBufferLoop, hb]
      rw [hstep]
      refine ⟨ih1, ?_, ?_, ?_⟩
      · simp only [List.length_cons, ih2]
        rw [hr2eq]
        split
        · next hle2 =>
          simp only [List.length_nil]
          rw [Nat.div_eq_of_lt (show 0 + N - 1 < N by omega)]
          rw [show buf.length + N - 1 = (buf.length - 1) + N by omega,
            Nat.add_div_right _ (by omega : 0 < N),
            Nat.div_eq_of_lt (by omega : buf.length - 1 < N)]
        · next hgt =>
          rw [List.length_drop]
          rw [show buf.length - N + N - 1 = buf.length - 1 by omega]
          rw [show buf.length + N - 1 = (buf.length - 1) + N by omega,
            Nat.add_div_right _ (by omega : 0 < N)]
      · rw [List.flatten_cons, ih3, hr2eq]
        split
        · next hle2 =>
          rw [Nat.min_eq_right hle2, List.take_length, List.append_nil]
        · next hgt =>
          rw [Nat.min_eq_left (by omega), List.take_append_drop]
      · rw [List.map_cons, ih4]
        rfl

/-- C3: with batch size `N ≥ 1`, the forced drain at end of input empties the
pending line buffer in exactly `⌈n/N⌉` rounds of the flush operation; the
dispatched batches concatenate back to the starting buffer (so every pending
unit, a short tail included, is sent in exactly one round), the per-round
results are the transport outcomes of the joined batches, and the drain
reports the per-round errors joined into one single result. -/
theorem C3_forced_drain (N : Nat) (t : String → Except String Unit)
    (buf : List String) (hN : 1 ≤ N) :
    (clearBufferLP N t buf).2.2 = []
    ∧ (clearBufferLP N t buf).1.length = (buf.length + N - 1) / N
    ∧ (clearBufferLP N t buf).1.flatten = buf
    ∧ (clearBufferLP N t buf).2.1
        = (clearBufferLP N t buf).1.map (fun b => t (String.intercalate "\n" b))
    ∧ clearBufferResult N t buf
        = joinErrs ((clearBufferLP N t buf).1.map
            (fun b => t (String.intercalate "\n" b))) := by
  obtain ⟨h1, h2, h3, h4⟩ := clearBufferLoop_spec N t hN buf.length buf (le_refl _)
  have h4' : (clearBufferLP N t buf).2.1
      = (clearBufferLP N t buf).1.map (fun b => t (String.intercalate "\n" b)) := h4
  exact ⟨h1, h2, h3, h4', by unfold clearBufferResult; rw [h4']⟩

/-- C3 witness: batch size 2 on the three units `a b c` — two rounds, batches
`[a, b]` and `[c]`, an empty final buffer, and the second round's transport
error reported as the drain's single result. -/
theorem C3_witness :
    (clearBufferLP 2 (fun s => if s = "c" then Except.error "boom" else Except.ok ())
        ["a", "b", "c"]).2.2 = []
    ∧ (clearBufferLP 2 (fun s => if s = "c" then Except.error "boom" else Except.ok ())
        ["a", "b", "c"]).1.length = (["a", "b", "c"].length + 2 - 1) / 2
    ∧ (clearBufferLP 2 (fun s => if s = "c" then Except.error "boom" else Except.ok ())
        ["a", "b", "c"]).1.flatten = ["a", "b", "c"]
    ∧ (clearBufferLP 2 (fun s => if s = "c" then Except.error "boom" else Except.ok ())
        ["a", "b", "c"]).2.1
        = (clearBufferLP 2 (fun s => if s = "c" then Except.error "boom" else Except.ok ())
            ["a", "b", "c"]).1.map
            (fun b => (fun s => if s = "c" then Except.error "boom" else Except.ok ())
              (String.intercalate "\n" b))
    ∧ clearBufferResult 2 (fun s => if s = "c" then Except.error "boom" else Except.ok ())
          ["a", "b", "c"]
        = joinErrs ((clearBufferLP 2 (fun s => if s = "c" then Except.error "boom" else Except.ok ())
            ["a", "b", "c"]).1.map
            (fun b => (fun s => if s = "c" then Except.error "boom" else Except.ok ())
              (String.intercalate "\n" b))) :=
  C3_forced_drain 2 (fun s => if s = "c" then Except.error "boom" else Except.ok ())
    ["a", "b", "c"] (by norm_num)

/-- Go-map assignment/lookup interaction on `FPMap`. -/
theorem fpLookup_fpSet (m : FPMap) (k f : String) (v : FieldPos) :
    fpLookup (fpSet m k v) f = if f = k then some v else fpLookup m f := by
  induction m with
  | nil =>
    by_cases h : f = k
    · subst h; simp [fpSet, fpLookup]
    · simp [fpSet, fpLookup, h, Ne.symm h]
  | cons kv rest ih =>
    obtain ⟨k', v'⟩ := kv
    by_cases h1 : k' = k
    · subst h1
      by_cases h2 : f = k'
      · subst h2; simp [fpSet, fpLookup]
      · simp [fpSet, fpLookup, h2, Ne.symm h2]
    · by_cases h2 : f = k'
      · subst h2
        simp [fpSet, fpLookup, h1]
      · simp [fpSet, fpLookup, h1, Ne.symm h2, h2, ih]

/-- Membership after a Go-map assignment on `FPMap`. -/
theorem fpHasKey_fpSet (m : FPMap) (k f : String) (v : FieldPos) :
    fpHasKey (fpSet m k v) f = if f = k then true else fpHasKey m f := by
  simp only [fpHasKey, fpLookup_fpSet]
  split <;> simp

/-- Lookup in a map built by seeding zero-valued entries over a base map. -/
theorem fpLookup_seed_fold :
    ∀ (ns : List String) (m : FPMap) (f : String),
      fpLookup (ns.foldl (fun acc n => fpSet acc n ⟨"", 0⟩) m) f
        = if f ∈ ns then some ⟨"", 0⟩ else fpLookup m f := by
  intro ns
  induction ns with
  | nil => intro m f; simp
  | cons n ns ih =>
    intro m f
    rw [List.foldl_cons, ih]
    by_cases h : f ∈ ns
    · simp [h]
    · by_cases h2 : f = n
      · subst h2; simp [h, fpLookup_fpSet]
      · simp [h, h2, fpLookup_fpSet]

/-- Lookup in a freshly seeded map. -/
theorem fpLookup_seedMap (ns : List String) (f : String) :
    fpLookup (seedMap ns) f = if f ∈ ns then some ⟨"", 0⟩ else none := by
  unfold seedMap
  rw [fpLookup_seed_fold]
  rfl

/-- One step of the header column scan, with the branch selection exposed. -/
theorem scanColumns_cons (cfg : CsvConfig) (fsm : CsvFsm) (datum : String)
    (idx : Nat) (rest : List (String × Nat)) :
    scanColumns cfg fsm ((datum, idx) :: rest) = scanColumns cfg
      (if fpHasKey fsm.tagMap datum then
        { fsm with tagMap := fpSet fsm.tagMap datum ⟨datum, idx⟩ }
       else if fpHasKey fsm.fieldMap datum then
        { fsm with fieldMap := fpSet fsm.fieldMap datum ⟨datum, idx⟩ }
       else if cfg.TimeField = datum then { fsm with timeField := ⟨datum, idx⟩ }
       else if cfg.Fields = [] then
        { fsm with fieldMap := fpSet fsm.fieldMap datum ⟨datum, idx⟩ }
       else fsm) rest := rfl

/-- The column scan never adds or removes tag-map keys: only values of
already-present keys are overwritten. -/
theorem scanColumns_tagHasKey (cfg : CsvConfig) :
    ∀ (cols : List (String × Nat)) (fsm : CsvFsm) (f : String),
      fpHasKey (scanColumns cfg fsm cols).tagMap f = fpHasKey fsm.tagMap f := by
  intro cols
  induction cols with
  | nil => intro fsm f; rfl
  | cons c rest ih =>
    intro fsm f
    obtain ⟨datum, idx⟩ := c
    rw [scanColumns_cons]
    by_cases h1 : fpHasKey fsm.tagMap datum
    · rw [if_pos h1, ih]
      simp only [fpHasKey_fpSet]
      split
      · next h => rw [h, h1]
      · rfl
    · rw [if_neg h1]
      by_cases h2 : fpHasKey fsm.fieldMap datum
      · rw [if_pos h2, ih]
      · rw [if_neg h2]
        by_cases h3 : cfg.TimeField = datum
        · rw [if_pos h3, ih]
        · rw [if_neg h3]
          by_cases h4 : cfg.Fields = []
          · rw [if_pos h4, ih]
          · rw [if_neg h4, ih]

/-- A name that matches no scanned column keeps its field-map entry. -/
theorem scanColumns_fieldMap_keep (cfg : CsvConfig) :
    ∀ (cols : List (String × Nat)) (fsm : CsvFsm) (f : String),
      (∀ x ∈ cols, x.1 ≠ f) →
      fpLookup (scanColumns cfg fsm cols).fieldMap f = fpLookup fsm.fieldMap f := by
  intro cols
  induction cols with
  | nil => intro fsm f _; rfl
  | cons c rest ih =>
    intro fsm f hne
    obtain ⟨datum, idx⟩ := c
    have hdf : datum ≠ f := hne (datum, idx) (List.mem_cons_self _ _)
    have hrest : ∀ x ∈ rest, x.1 ≠ f := fun x hx => hne x (List.mem_cons_of_mem _ hx)
    rw [scanColumns_cons]
    by_cases h1 : fpHasKey fsm.tagMap datum
    · rw [if_pos h1, ih _ _ hrest]
    · rw [if_neg h1]
      by_cases h2 : fpHasKey fsm.fieldMap datum
      · rw [if_pos h2, ih _ _ hrest]
        simp [fpLookup_fpSet, Ne.symm hdf]
      · rw [if_neg h2]
        by_cases h3 : cfg.TimeField = datum
        · rw [if_pos h3, ih _ _ hrest]
        · rw [if_neg h3]
          by_cases h4 : cfg.Fields = []
          · rw [if_pos h4, ih _ _ hrest]
            simp [fpLookup_fpSet, Ne.symm hdf]
          · rw [if_neg h4, ih _ _ hrest]

/-- A name present in the tag map keeps its field-map entry through the scan:
the tag-map branch is checked first, so such a column never reaches the
field-map branches. -/
theorem scanColumns_fieldMap_tagkey (cfg : CsvConfig) :
    ∀ (cols : List (String × Nat)) (fsm : CsvFsm) (f : String),
      fpHasKey fsm.tagMap f = true →
      fpLookup (scanColumns cfg fsm cols).fieldMap f = fpLookup fsm.fieldMap f := by
  intro cols
  induction cols with
  | nil => intro fsm f _; rfl
  | cons c rest ih =>
    intro fsm f htag
    obtain ⟨datum, idx⟩ := c
    rw [scanColumns_cons]
    by_cases h1 : fpHasKey fsm.tagMap datum
    · rw [if_pos h1, ih]
      simp only [fpHasKey_fpSet]
      split
      · rfl
      · exact htag
    · have hdf : datum ≠ f := fun hc => h1 (hc ▸ htag)
      rw [if_neg h1]
      by_cases h2 : fpHasKey fsm.fieldMap datum
      · rw [if_pos h2,
          ih { fsm with fieldMap := fpSet fsm.fieldMap datum ⟨datum, idx⟩ } f htag]
        simp [fpLookup_fpSet, Ne.symm hdf]
      · rw [if_neg h2]
        by_cases h3 : cfg.TimeField = datum
        · rw [if_pos h3, ih { fsm with timeField := ⟨datum, idx⟩ } f htag]
        · rw [if_neg h3]
          by_cases h4 : cfg.Fields = []
          · rw [if_pos h4,
              ih { fsm with fieldMap := fpSet fsm.fieldMap datum ⟨datum, idx⟩ } f htag]
            simp [fpLookup_fpSet, Ne.symm hdf]
          · rw [if_neg h4, ih fsm f htag]

/-- Invariant of the column scan: a field-map entry with a non-empty name is
never a tag-map key, because the tag-map branch is checked first. -/
theorem scanColumns_inv (cfg : CsvConfig) :
    ∀ (cols : List (String × Nat)) (fsm : CsvFsm),
      (∀ g, (fpGetZero fsm.fieldMap g).Name ≠ "" → fpHasKey fsm.tagMap g = false) →
      ∀ g, (fpGetZero (scanColumns cfg fsm cols).fieldMap g).Name ≠ "" →
        fpHasKey (scanColumns cfg fsm cols).tagMap g = false := by
  intro cols
  induction cols with
  | nil => intro fsm hinv g; exact hinv g
  | cons c rest ih =>
    intro fsm hinv
    obtain ⟨datum, idx⟩ := c
    rw [scanColumns_cons]
    by_cases h1 : fpHasKey fsm.tagMap datum
    · rw [if_pos h1]
      apply ih
      intro g hg
      simp only [fpHasKey_fpSet]
      have hbase := hinv g hg
      split
      · next h => rw [h] at hbase; rw [hbase] at h1; cases h1
      · exact hbase
    · rw [if_neg h1]
      by_cases h2 : fpHasKey fsm.fieldMap datum
      · rw [if_pos h2]
        apply ih
        intro g hg
        by_cases hgd : g = datum
        · subst hgd; simpa using h1
        · apply hinv
          simpa [fpGetZero, fpLookup_fpSet, hgd] using hg
      · rw [if_neg h2]
        by_cases h3 : cfg.TimeField = datum
        · rw [if_pos h3]
          exact ih _ (fun g hg => hinv g hg)
        · rw [if_neg h3]
          by_cases h4 : cfg.Fields = []
          · rw [if_pos h4]
            apply ih
            intro g hg
            by_cases hgd : g = datum
            · subst hgd; simpa using h1
            · apply hinv
              simpa [fpGetZero, fpLookup_fpSet, hgd] using hg
          · rw [if_neg h4]
            exact ih _ hinv

/-- Under the scan invariant, a configured field with an empty (zero-valued)
map entry makes the field-validation loop fail with the
"field name (...) not in csv header" message of its first such field — the
"is in both tags and fields" branch can never fire first. -/
theorem checkFields_missing (fm tm : FPMap) :
    ∀ (fs : List String),
      (∀ g, (fpGetZero fm g).Name ≠ "" → fpHasKey tm g = false) →
      (∃ f ∈ fs, (fpGetZero fm f).Name = "") →
      ∃ g ∈ fs, checkFields fm tm fs
          = some ("field name (" ++ g ++ ") not in csv header") := by
  intro fs
  induction fs with
  | nil =>
    intro _ hex
    obtain ⟨f, hf, _⟩ := hex
    cases hf
  | cons f fs ih =>
    intro hinv hex
    by_cases hf : (fpGetZero fm f).Name = ""
    · exact ⟨f, List.mem_cons_self _ _, by simp [checkFields, hf]⟩
    · have htm : fpHasKey tm f = false := hinv f hf
      have hstep : checkFields fm tm (f :: fs) = checkFields fm tm fs := by
        simp [checkFields, hf, htm]
      have hex' : ∃ g ∈ fs, (fpGetZero fm g).Name = "" := by
        obtain ⟨g, hg, hgn⟩ := hex
        rcases List.mem_cons.mp hg with hg | hg
        · subst hg; exact absurd hgn hf
        · exact ⟨g, hg, hgn⟩
      obtain ⟨g, hg, hck⟩ := ih hinv hex'
      exact ⟨g, List.mem_cons_of_mem _ hg, hstep ▸ hck⟩

/-- An import configuration with one configured field `f1` that does not
occur in the header used in the C7 scenarios. -/
def csvCfgF1 : CsvConfig :=
  { Database := "db", RetentionPolicy := "autogen", Measurement := "m",
    TimeField := "time", Tags := [], Fields := ["f1"],
    BatchSize := 100, TimeMultiplier := 1 }

/-- C7 counterexample: with configured field `f1` and header `time,other`,
the header closure fails with "field name (f1) not in csv header", yet the
driving loop logs the error and continues, and the following data row IS
processed — it is converted to a point and buffered (the FSM had already
moved to the DML state and kept the partially populated context). -/
theorem C7_counterexample :
    (processCSVFile csvCfgF1 none none initCsvFsm
        [["time", "other"], ["1", "2"]]).2
      = [some "field name (f1) not in csv header", none]
    ∧ (processCSVFile csvCfgF1 none none initCsvFsm
        [["time", "other"], ["1", "2"]]).1.batchPointBuffer.length = 1 := by
  exact ⟨rfl, rfl⟩

/-- C7 (amended): a configured field name absent from the (BOM-stripped)
header makes the header closure fail with a "field name (...) not in csv
header" error, and a name configured as both tag and field is always rejected
by the header closure (its header column is claimed by the tag map, so the
same missing-field error fires); however, after such a header-phase failure
the import loop continues and subsequent data rows ARE still processed,
appending points built from the partially populated context. -/
theorem C7_header_validation_amended (cfg : CsvConfig) (fsm : CsvFsm)
    (data row : List String) (f x : String) (flushErr : Option String) :
    (f ∈ cfg.Fields → f ∉ stripHeaderBom data →
      ∃ g ∈ cfg.Fields, (processCSVHeader cfg none fsm data).2
        = some ("field name (" ++ g ++ ") not in csv header"))
    ∧ (x ∈ cfg.Tags → x ∈ cfg.Fields →
        ∃ m, (processCSVHeader cfg none fsm data).2 = some m)
    ∧ (fsm.state = .dml → fsm.database ≠ "" → cfg.Measurement ≠ "" →
        fsm.fieldMap ≠ [] → fsm.batchPointBuffer.length + 1 < cfg.BatchSize →
        row ≠ [] →
        (processCSVStep cfg none flushErr fsm row).2 = none
        ∧ (processCSVStep cfg none flushErr fsm row).1.batchPointBuffer.length
            = fsm.batchPointBuffer.length + 1) := by
  have hseedinv : ∀ g, (fpGetZero (headerSeeded cfg fsm).fieldMap g).Name ≠ "" →
      fpHasKey (headerSeeded cfg fsm).tagMap g = false := by
    intro g hg
    exfalso
    apply hg
    simp only [headerSeeded, fpGetZero, fpLookup_seedMap]
    split <;> rfl
  have hinv : ∀ g, (fpGetZero (headerScanned cfg fsm data).fieldMap g).Name ≠ "" →
      fpHasKey (headerScanned cfg fsm data).tagMap g = false :=
    scanColumns_inv cfg _ _ hseedinv
  refine ⟨fun hf hnot => ?_, fun hxT hxF => ?_, fun hst hdb hms hfm hbs hrow => ?_⟩
  · have hlook : fpLookup (headerScanned cfg fsm data).fieldMap f = some ⟨"", 0⟩ := by
      unfold headerScanned
      rw [scanColumns_fieldMap_keep cfg _ _ f ?_]
      · simp [headerSeeded, fpLookup_seedMap, hf]
      · rintro ⟨a, b⟩ hy hcon
        exact hnot (hcon ▸ (List.of_mem_zip hy).1)
    have hname : (fpGetZero (headerScanned cfg fsm data).fieldMap f).Name = "" := by
      simp [fpGetZero, hlook]
    obtain ⟨g, hg, hck⟩ :=
      checkFields_missing (headerScanned cfg fsm data).fieldMap
        (headerScanned cfg fsm data).tagMap cfg.Fields hinv ⟨f, hf, hname⟩
    refine ⟨g, hg, ?_⟩
    simp [processCSVHeader, hck]
  · have htag : fpHasKey (headerSeeded cfg fsm).tagMap x = true := by
      simp [headerSeeded, fpHasKey, fpLookup_seedMap, hxT]
    have hlook : fpLookup (headerScanned cfg fsm data).fieldMap x = some ⟨"", 0⟩ := by
      unfold headerScanned
      rw [scanColumns_fieldMap_tagkey cfg _ _ x htag]
      simp [headerSeeded, fpLookup_seedMap, hxF]
    have hname : (fpGetZero (headerScanned cfg fsm data).fieldMap x).Name = "" := by
      simp [fpGetZero, hlook]
    obtain ⟨g, hg, hck⟩ :=
      checkFields_missing (headerScanned cfg fsm data).fieldMap
        (headerScanned cfg fsm data).tagMap cfg.Fields hinv ⟨x, hxF, hname⟩
    exact ⟨"field name (" ++ g ++ ") not in csv header",
      by simp [processCSVHeader, hck]⟩
  · have hstep : processCSVStep cfg none flushErr fsm row
        = processCSVRow cfg flushErr fsm row := by
      rw [processCSVStep, if_neg hrow, hst]
    rw [hstep]
    by_cases hrp : fsm.retentionPolicy = "" <;>
      simp [processCSVRow, hdb, hrp, hms, hfm, hbs]

/-- C7 witness: the three amended clauses at concrete inputs — the missing
configured field `f1` against header `time,other`; the name `x1` configured
as both tag and field; and a data row processed by a DML-state FSM. -/
theorem C7_witness :
    (∃ g ∈ csvCfgF1.Fields,
        (processCSVHeader csvCfgF1 none initCsvFsm ["time", "other"]).2
          = some ("field name (" ++ g ++ ") not in csv header"))
    ∧ (∃ m, (processCSVHeader ⟨"db", "autogen", "m", "time", ["x1"], ["x1"], 100, 1⟩
          none initCsvFsm ["x1", "time"]).2 = some m)
    ∧ ((processCSVStep csvCfgF1 none none
          ⟨.dml, "db", "autogen", "m", [], [("f1", ⟨"f1", 1⟩)], ⟨"time", 0⟩, []⟩
          ["1", "2"]).2 = none
        ∧ (processCSVStep csvCfgF1 none none
            ⟨.dml, "db", "autogen", "m", [], [("f1", ⟨"f1", 1⟩)], ⟨"time", 0⟩, []⟩
            ["1", "2"]).1.batchPointBuffer.length = 1) :=
  ⟨(C7_header_validation_amended csvCfgF1 initCsvFsm ["time", "other"] [] "f1" "" none).1
      (by decide) (by decide),
   (C7_header_validation_amended ⟨"db", "autogen", "m", "time", ["x1"], ["x1"], 100, 1⟩
      initCsvFsm ["x1", "time"] [] "" "x1" none).2.1 (by decide) (by decide),
   (C7_header_validation_amended csvCfgF1
      ⟨.dml, "db", "autogen", "m", [], [("f1", ⟨"f1", 1⟩)], ⟨"time", 0⟩, []⟩
      [] ["1", "2"] "" "" none).2.2 rfl (by decide) (by decide) (by decide)
      (by decide) (by decide)⟩

/-- C10: the CSV timestamp conversion is total and best-effort — any string
that is not a valid number (the empty string and arbitrary text included)
yields 0 rather than an error — and the outcome of the CSV data-row handler
does not depend on the row's cells at all: no data row is ever rejected
because of a malformed time-column value, and with a valid context (and the
batch threshold not reached) every row is accepted outright. -/
theorem C10_time_parse_total (m : Int) (s : String) (cfg : CsvConfig)
    (flushErr : Option String) (fsm : CsvFsm) (row row' : List String) :
    (parseBestEffortOpt s = none → parseTimestamp2Int64 m s = 0)
    ∧ parseTimestamp2Int64 m "" = 0
    ∧ parseTimestamp2Int64 m "not a number" = 0
    ∧ (processCSVRow cfg flushErr fsm row).2 = (processCSVRow cfg flushErr fsm row').2
    ∧ (fsm.database ≠ "" → cfg.Measurement ≠ "" → fsm.fieldMap ≠ [] →
        fsm.batchPointBuffer.length + 1 < cfg.BatchSize →
        (processCSVRow cfg flushErr fsm row).2 = none) := by
  refine ⟨fun h => ?_, ?_, ?_, ?_, fun hdb hms hfm hbs => ?_⟩
  · simp [parseTimestamp2Int64, h]
  · simp [parseTimestamp2Int64, show parseBestEffortOpt "" = none from rfl]
  · simp [parseTimestamp2Int64, show parseBestEffortOpt "not a number" = none from rfl]
  · by_cases h1 : fsm.database = ""
    · simp [processCSVRow, h1]
    · by_cases h2 : fsm.retentionPolicy = "" <;>
        by_cases h3 : cfg.Measurement = "" <;>
        by_cases h4 : fsm.fieldMap = [] <;>
        (simp [processCSVRow, h1, h2, h3, h4] <;> (split <;> rfl))
  · by_cases h2 : fsm.retentionPolicy = "" <;>
      simp [processCSVRow, hdb, h2, hms, hfm, hbs]

/-- C10 witness: the conversion returns 0 on the non-numeric string `abc`
(no error raised), and a data row whose time cell is garbage is accepted. -/
theorem C10_witness :
    parseTimestamp2Int64 1000000 "abc" = 0
    ∧ (processCSVRow ⟨"db", "autogen", "m", "time", [], ["f1"], 100, 1⟩ none
        ⟨.dml, "db", "autogen", "m", [], [("f1", ⟨"f1", 1⟩)], ⟨"time", 0⟩, []⟩
        ["garbage-time", "5"]).2 = none :=
  ⟨(C10_time_parse_total 1000000 "abc"
      ⟨"db", "autogen", "m", "time", [], ["f1"], 100, 1⟩ none
      ⟨.dml, "db", "autogen", "m", [], [("f1", ⟨"f1", 1⟩)], ⟨"time", 0⟩, []⟩
      [] []).1 rfl,
   (C10_time_parse_total 1 ""
      ⟨"db", "autogen", "m", "time", [], ["f1"], 100, 1⟩ none
      ⟨.dml, "db", "autogen", "m", [], [("f1", ⟨"f1", 1⟩)], ⟨"time", 0⟩, []⟩
      ["garbage-time", "5"] []).2.2.2.2 (by decide) (by decide) (by decide)
      (by decide)⟩

end OpenGeminiCli
